import Mathlib

/-!
Shallow embedding of `nototools/shape_diff.py` (class `ShapeDiffFinder`).

Modelling conventions:
* Glyph areas are rationals (the area pen accumulates outline integrals; we
  model the numeric values exactly, with true division as in the source).
* A font is seen through the data the source reads from it: its glyph order
  (`f.getGlyphOrder()`, a list of names), a per-glyph area oracle (the result
  of drawing the glyph into `GlyphAreaPen` and calling `unload`), and a
  reverse codepoint map (`hb_input.build_reverse_cmap`, an association list
  from glyph name to codepoint).  These live outside `shape_diff.py`, so they
  are parameters of the definitions below.
* Python exceptions are modelled with `Except PyErr`; an expression that
  raises is an `.error`.
* Python set values are modelled as `Finset String`; iteration over a set
  (whose order Python leaves unspecified) is modelled by `orderedNames`,
  which fixes one concrete enumeration of the set.
-/

/-- The Python exceptions the embedded code can raise. -/
inductive PyErr
  | nameError
  | zeroDivisionError
  | assertionError
  | indexError
  | valueError
deriving DecidableEq

/-- One element of `stats[compared]`.  Area diffing appends 5-tuples
`(metric, name, basepath, area_a, area_b)`; rendered diffing appends 3-tuples
`(diff, name, basepath)`.  The two trailing values are kept in `vals`
(empty for a rendered record), the leading three in the named fields. -/
structure DiffRecord where
  metric : ℚ
  name : String
  source : String
  vals : List ℚ
deriving DecidableEq

/-- The shared mutable stats dictionary: its four list-valued keys
(`shape_diff.py` lines 48-51). -/
structure Stats where
  compared : List DiffRecord
  untested : List String
  unmatched : List (String × Finset String × Finset String)
  unicode_mismatch : List (String × List (String × Option ℕ × Option ℕ))
deriving DecidableEq

/-- `ShapeDiffFinder.__init__` (lines 48-51): the constructor assigns a fresh
empty list to each of the four keys of the caller-supplied stats dictionary,
whatever it held before. -/
def shape_diff_finder_init (_st : Stats) : Stats :=
  { compared := [], untested := [], unmatched := [], unicode_mismatch := [] }

/-- `_calc_diff` (lines 249-253): absolute area difference. -/
def calc_diff (vals : ℚ × ℚ) : Except PyErr ℚ :=
  .ok |vals.1 - vals.2|

/-- `_calc_ratio` (lines 255-261).  `if not (a or b)` is true exactly when
both numbers equal zero; otherwise Python evaluates `min(a, b) / max(a, b)`,
which raises `ZeroDivisionError` when the maximum is zero (possible when one
area is negative and the other zero). -/
def calc_ratio (vals : ℚ × ℚ) : Except PyErr ℚ :=
  let a := vals.1
  let b := vals.2
  if a = 0 ∧ b = 0 then .ok 0
  else if max a b = 0 then .error .zeroDivisionError
  else .ok (1 - min a b / max a b)

/-- `build_names` (lines 164-174) on its first (non-memoized) run.  The two
glyph orders are turned into sets; a coverage mismatch appends one entry and
the shared set is the intersection. -/
def build_names (orderA orderB : List String) (bp : String) (st : Stats) :
    Stats × Finset String :=
  let names_a := orderA.toFinset
  let names_b := orderB.toFinset
  let st :=
    if names_a ≠ names_b then
      { st with unmatched := st.unmatched ++ [(bp, names_a \ names_b, names_b \ names_a)] }
    else st
  (st, names_a ∩ names_b)

/-- One concrete enumeration of a glyph-name set, used wherever the source
iterates over `self.names` (Python set iteration order is unspecified): the
first-occurrence order of font A, restricted to the set. -/
def orderedNames (orderA : List String) (names : Finset String) : List String :=
  orderA.dedup.filter (fun n => decide (n ∈ names))

/-- The body of the append loop of `find_area_diffs` (lines 76-77).  Python
evaluates the tuple `(calc(areas), name, self.basepath, area[0], area[1])`
left to right: after `calc(areas)` it must load the name `area`, but the loop
only binds `areas`, so the first iteration raises `NameError`.  An empty
loop appends nothing and returns normally. -/
def areaAppendLoop (calcFn : ℚ × ℚ → Except PyErr ℚ) (st : Stats) :
    List (String × ℚ × ℚ) → Except PyErr Stats
  | [] => .ok st
  | (_name, areas) :: _rest =>
    match calcFn areas with
    | .error e => .error e
    | .ok _metric => .error .nameError

/-- `find_area_diffs` (lines 56-77): reconcile the glyph sets, collect the
glyphs whose two areas differ, then run the (faulty) append loop. -/
def find_area_diffs (ratio_diffs : Bool) (orderA orderB : List String)
    (areaA areaB : String → ℚ) (bp : String) (st : Stats) : Except PyErr Stats :=
  let bn := build_names orderA orderB bp st
  let mismatched := (orderedNames orderA bn.2).filterMap (fun n =>
    if areaA n ≠ areaB n then some (n, areaA n, areaB n) else none)
  areaAppendLoop (if ratio_diffs then calc_ratio else calc_diff) bn.1 mismatched

/-- `build_reverse_cmap` (lines 176-194) on its first run.  `namesIter` is
the enumeration of `self.names`; `cmapA`, `cmapB` are the per-font reverse
cmaps from `hb_input.build_reverse_cmap` (association lists; `.get` is
`List.lookup`).  Shared names on which the two maps disagree are collected,
recorded in one `unicode_mismatch` entry when any exist, and the returned
map keeps the entries of font A whose name is shared and not mismatched. -/
def build_reverse_cmap (cmapA cmapB : List (String × ℕ)) (namesIter : List String)
    (bp : String) (st : Stats) : Stats × List (String × ℕ) :=
  let mismatchedNames := namesIter.filter (fun n =>
    decide (cmapA.lookup n ≠ cmapB.lookup n))
  let mismatchedItems := mismatchedNames.map (fun n =>
    (n, (cmapA.lookup n, cmapB.lookup n)))
  let st :=
    if mismatchedItems.isEmpty then st
    else { st with unicode_mismatch := st.unicode_mismatch ++ [(bp, mismatchedItems)] }
  (st, cmapA.filter (fun p => namesIter.contains p.1 && !(mismatchedNames.contains p.1)))

/-- Python `str.strip()` on text: drop whitespace from both ends. -/
def pyStrip (s : String) : String :=
  String.mk (((s.data.dropWhile Char.isWhitespace).reverse.dropWhile Char.isWhitespace).reverse)

/-- Decimal digit value of a character, if it is one. -/
def pyDigit (c : Char) : Option ℕ :=
  if c.isDigit then some (c.toNat - 48) else none

/-- Value of a non-empty all-digit character run. -/
def digitsVal : List Char → Option ℕ
  | [] => none
  | cs =>
    cs.foldl (fun acc c =>
      match acc, pyDigit c with
      | some a, some d => some (a * 10 + d)
      | _, _ => none) (some 0)

/-- Python `int(s)` on an already-stripped string: an optional sign followed
by at least one decimal digit; anything else raises `ValueError` (`none`). -/
def pyIntOfString (s : String) : Option ℤ :=
  match s.data with
  | '-' :: cs => (digitsVal cs).map (fun n => -(n : ℤ))
  | '+' :: cs => (digitsVal cs).map (fun n => (n : ℤ))
  | cs => (digitsVal cs).map (fun n => (n : ℤ))

/-- The state threaded through the per-glyph loop of `find_rendered_diffs`:
the stats dictionary plus the lines of the diff log file. -/
structure RenderState where
  st : Stats
  diffLog : List String
deriving DecidableEq

/-- One iteration of the loop of `find_rendered_diffs` (lines 95-143).
`genA`, `genB` are the two `HbInputGenerator.input_from_name` oracles
(`none` when no shaping input exists).  The external shaper/compare tools
are modelled as oracles that succeed; `aeLine` is the single line of output
the comparator writes into the diff log for a glyph (its `AE` pixel count,
as text).  Modelled from the spec: the external comparator emits exactly one
metric line per invocation (its binary is not part of this repository). -/
def renderGlyph (genA genB : String → Option (List String × String))
    (aeLine : String → String) (s : RenderState) (name : String) :
    Except PyErr RenderState :=
  if genA name ≠ genB name then .error .assertionError
  else
    match genA name with
    | none => .ok { s with st := { s.st with untested := s.st.untested ++ [name] } }
    | some (_features, text) =>
      if text = "\x00" then .ok s
      else .ok { s with diffLog := s.diffLog ++ [name, aeLine name] }

/-- The per-glyph loop: run `renderGlyph` over the names in order, stopping
at the first raised exception (which aborts the whole method). -/
def runGlyphs (genA genB : String → Option (List String × String))
    (aeLine : String → String) : List String → RenderState → RenderState × Option PyErr
  | [], s => (s, none)
  | n :: rest, s =>
    match renderGlyph genA genB aeLine s n with
    | .error e => (s, some e)
    | .ok s2 => runGlyphs genA genB aeLine rest s2

/-- Lines 145-148: read the diff log back and pair the lines
`(lines[i].strip(), lines[i+1].strip())`; an odd number of lines makes
`lines[i + 1]` raise `IndexError`. -/
def parsePairs : List String → Except PyErr (List (String × String))
  | [] => .ok []
  | [_] => .error .indexError
  | a :: b :: rest =>
    match parsePairs rest with
    | .error e => .error e
    | .ok t => .ok ((pyStrip a, pyStrip b) :: t)

/-- Lines 155-158: keep the pairs whose metric text parses to a nonzero
integer; an unparsable metric raises `ValueError`. -/
def intFilterPairs : List (String × String) → Except PyErr (List (String × ℤ))
  | [] => .ok []
  | (n, d) :: rest =>
    match pyIntOfString d with
    | none => .error .valueError
    | some v =>
      match intFilterPairs rest with
      | .error e => .error e
      | .ok tail => .ok (if v ≠ 0 then (n, v) :: tail else tail)

/-- The four temporary paths made by `_make_tmp_path` at lines 90-93
(`a_png`, `b_png`, `cmp_png`, `diffs_filename`), as abstract tokens. -/
def tmpPaths : List ℕ := [0, 1, 2, 3]

/-- What a run of `find_rendered_diffs` leaves behind: the exception it
raised (if any), the stats dictionary as mutated so far, and which temporary
files were created and removed. -/
structure RenderOutcome where
  error : Option PyErr
  st : Stats
  created : List ℕ
  removed : List ℕ
deriving DecidableEq

/-- Lines 145-162 of `find_rendered_diffs`, run after the per-glyph loop
(or cut short by an exception the loop raised): read the log back, pair its
lines (still before the `os.remove` calls of lines 150-153), remove the
four temporary files, filter out the zero metrics (after the removal), and
append the remainder to `compared`.  An exception raised by the loop or by
the pairing leaves all temporary files behind. -/
def finishRenderedRun (bp : String) (run : RenderState × Option PyErr) :
    RenderOutcome :=
  match run.2 with
  | some e => ⟨some e, run.1.st, tmpPaths, []⟩
  | none =>
    match parsePairs run.1.diffLog with
    | .error e => ⟨some e, run.1.st, tmpPaths, []⟩
    | .ok diffs =>
      match intFilterPairs diffs with
      | .error e => ⟨some e, run.1.st, tmpPaths, tmpPaths⟩
      | .ok mismatched =>
        ⟨none,
         { run.1.st with
             compared := run.1.st.compared
               ++ mismatched.map (fun p => ⟨(p.2 : ℚ), p.1, bp, []⟩) },
         tmpPaths, tmpPaths⟩

/-- `find_rendered_diffs` (lines 79-162): reconcile names and codepoint
maps, create the four temporary files, run the per-glyph loop over the
shared names, then parse, clean up and record. -/
def find_rendered_diffs (cmapA cmapB : List (String × ℕ))
    (genA genB : String → Option (List String × String))
    (aeLine : String → String) (orderA orderB : List String) (bp : String)
    (st : Stats) : RenderOutcome :=
  let bn := build_names orderA orderB bp st
  let iter := orderedNames orderA bn.2
  let rc := build_reverse_cmap cmapA cmapB iter bp bn.1
  finishRenderedRun bp (runGlyphs genA genB aeLine iter ⟨rc.1, []⟩)

/-- Whether the loop writes a diff-log chunk for a glyph: it has a shaping
input and that input's text is not the null character. -/
def reachableGlyph (genA : String → Option (List String × String)) (g : String) : Bool :=
  match genA g with
  | none => false
  | some (_features, text) => if text = "\x00" then false else true

/-- The `compared` records a completed run of `find_rendered_diffs` appends,
as a function of the glyph enumeration: one record per reachable glyph whose
logged metric parses to a nonzero integer. -/
def renderedRecords (genA : String → Option (List String × String))
    (aeLine : String → String) (bp : String) (l : List String) : List DiffRecord :=
  (l.filter (reachableGlyph genA)).filterMap (fun g =>
    match pyIntOfString (pyStrip (aeLine g)) with
    | none => none
    | some v => if v ≠ 0 then some ⟨(v : ℚ), pyStrip g, bp, []⟩ else none)

/-- A Python value occurring in a report row tuple: a string or a number. -/
inductive PyVal
  | str (s : String)
  | num (q : ℚ)
deriving DecidableEq, BEq

/-- A `compared` record as the Python tuple it is stored as:
`(metric, name, basepath) + vals`. -/
def recordTuple (r : DiffRecord) : List PyVal :=
  [.num r.metric, .str r.name, .str r.source] ++ r.vals.map .num

/-- Python 2 `<` on two tuple components: numbers compare numerically,
strings lexicographically, and any number sorts before any string. -/
def pyValLT : PyVal → PyVal → Bool
  | .num a, .num b => decide (a < b)
  | .num _, .str _ => true
  | .str _, .num _ => false
  | .str a, .str b => decide (a < b)

/-- Python 2 `<=` on tuples: lexicographic, a prefix sorting first. -/
def pyTupleLE : List PyVal → List PyVal → Bool
  | [], _ => true
  | _ :: _, [] => false
  | a :: as, b :: bs => pyValLT a b || (a == b && pyTupleLE as bs)

/-- The order `sorted` uses on `compared` records (line 211). -/
def recordLE (r s : DiffRecord) : Prop :=
  pyTupleLE (recordTuple r) (recordTuple s) = true

instance recordLE.instDecidableRel : DecidableRel recordLE :=
  fun r s => Bool.decEq (pyTupleLE (recordTuple r) (recordTuple s)) true

/-- Lines 211-213 of `dump`: drop whitelisted records, sort ascending, then
reverse so the highest metric comes first. -/
def sortedCompared (stats : Stats) (whitelist : Finset String) : List DiffRecord :=
  (List.insertionSort recordLE
    (stats.compared.filter (fun s => decide (s.name ∉ whitelist)))).reverse

/-- Line 222 and 224-225 of `dump`: reverse the first three tuple fields
(so the row reads font, name, metric), keep the raw values, and drop the
font field when only one font pair was compared. -/
def dumpRowFields (r : DiffRecord) (multiple_fonts : Bool) : List PyVal :=
  let line := recordTuple r
  let line := (line.take 3).reverse ++ line.drop 3
  if multiple_fonts then line else line.drop 1

/-- `%s` rendering of a number.  An integral value prints with no decimal
point; the rendering of non-integral values is abstracted by `toString`. -/
def pyRepr (q : ℚ) : String :=
  if q.den = 1 then toString q.num else toString q

/-- `%s` rendering of a row tuple component. -/
def pyValFmt : PyVal → String
  | .str s => s
  | .num q => pyRepr q

/-- The format string of lines 214-218 applied to a row tuple (line 226).
Python `%` raises `TypeError` (here `none`) when the number of fields does
not match the number of placeholders. -/
def formatRow (fields : List String) (include_vals multiple_fonts : Bool) :
    Option String :=
  match multiple_fonts, include_vals, fields with
  | false, false, [a, b] => some (a ++ " " ++ b)
  | false, true, [a, b, c, d] =>
    some (a ++ " " ++ b ++ " (" ++ c ++ " vs " ++ d ++ ")")
  | true, false, [f, a, b] => some (f ++ " " ++ a ++ " " ++ b)
  | true, true, [f, a, b, c, d] =>
    some (f ++ " " ++ a ++ " " ++ b ++ " (" ++ c ++ " vs " ++ d ++ ")")
  | _, _, _ => none

/-- One printed diff row. -/
def rowString (r : DiffRecord) (include_vals multiple_fonts : Bool) : Option String :=
  formatRow ((dumpRowFields r multiple_fonts).map pyValFmt) include_vals multiple_fonts

/-- Python `repr` of a sorted list of strings, as printed by
`'  in A but not B: %s' % sorted(set_a)`. -/
def pyListRepr (l : List String) : String :=
  "[" ++ String.intercalate ", " (l.map (fun s => "\x27" ++ s ++ "\x27")) ++ "]"

/-- `%04X` rendering of a codepoint (uppercase hex, zero-padded to 4). -/
def hex04 (v : ℕ) : String :=
  let ds := (Nat.toDigits 16 v).map Char.toUpper
  "0x" ++ String.mk (List.replicate (4 - ds.length) '0' ++ ds)

/-- Line 242: `('0x%04X' % v) if v else str(v)` — a falsy value (absent
mapping, or codepoint zero) prints via `str`. -/
def optNumStr : Option ℕ → String
  | none => "None"
  | some v => if v = 0 then "0" else hex04 v

/-- Lines 233-236: the three lines of one coverage-mismatch entry. -/
def unmatchedLines (e : String × Finset String × Finset String) : List String :=
  ["Glyph coverage doesn\x27t match in " ++ e.1,
   "  in A but not B: " ++ pyListRepr (Finset.sort (· ≤ ·) e.2.1),
   "  in B but not A: " ++ pyListRepr (Finset.sort (· ≤ ·) e.2.2)]

/-- Lines 239-244: the lines of one codepoint-mismatch entry.  The recorded
items have distinct names (one per shared glyph), so Python tuple sorting
is sorting by name. -/
def unicodeMismatchLines (e : String × List (String × Option ℕ × Option ℕ)) :
    List String :=
  ("Glyph unicode values don\x27t match in " ++ e.1) ::
    (List.insertionSort (fun a b => a.1 ≤ b.1) e.2).map (fun p =>
      "  " ++ p.1 ++ ": " ++ optNumStr p.2.1 ++ " in A, " ++ optNumStr p.2.2 ++ " in B")

/-- `dump` (lines 196-247), producing the report line list that line 247
joins with newlines.  A row whose arity does not fit the format string makes
the whole call raise (`none`). -/
def dumpLines (stats : Stats) (whitelist : Finset String) (out_lines : ℕ)
    (include_vals multiple_fonts : Bool) : Option (List String) :=
  let compared := sortedCompared stats whitelist
  ((compared.take out_lines).mapM (fun r =>
      rowString r include_vals multiple_fonts)).map (fun rows =>
    (Nat.repr compared.length ++ " differences in glyph shape") :: rows ++ [""]
      ++ (List.insertionSort (· ≤ ·) stats.untested).map
          (fun n => "not tested (unreachable?): " ++ n) ++ [""]
      ++ stats.unmatched.flatMap unmatchedLines ++ [""]
      ++ stats.unicode_mismatch.flatMap unicodeMismatchLines ++ [""])

/-- The report text `dump` returns: the lines joined by newlines. -/
def dump (stats : Stats) (whitelist : Finset String) (out_lines : ℕ)
    (include_vals multiple_fonts : Bool) : Option String :=
  (dumpLines stats whitelist out_lines include_vals multiple_fonts).map
    (String.intercalate "\n")

/-- `needle` occurs somewhere in the text `hay`. -/
def strOccurs (needle hay : String) : Prop :=
  ∃ p q : String, hay = p ++ needle ++ q

/-- Font A areas of the scenario glyphs: a:100, b:50, c:0. -/
def areaScenA : String → ℚ := fun n => if n = "a" then 100 else if n = "b" then 50 else 0

/-- Font B areas of the scenario glyphs: a:100, b:60, c:0. -/
def areaScenB : String → ℚ := fun n => if n = "a" then 100 else if n = "b" then 60 else 0

/-- Claim C1: on shared glyphs a, b, c with areas 100/100, 50/60, 0/0 the
claim expects one `compared` record for b with absolute metric 10.  The code
instead raises `NameError` at line 77 (`area[0]`: only `areas` is bound), so
no record is ever appended when any areas differ; with no differing areas
the method returns and `compared` stays empty. -/
theorem find_area_diffs_nameError_on_scenario :
    find_area_diffs false ["a", "b", "c"] ["a", "b", "c"] areaScenA areaScenB "f0"
      (shape_diff_finder_init ⟨[], [], [], []⟩) = .error .nameError ∧
    find_area_diffs false ["a", "c"] ["a", "c"] areaScenA areaScenB "f0"
      (shape_diff_finder_init ⟨[], [], [], []⟩) = .ok ⟨[], [], [], []⟩ := by
  exact ⟨rfl, rfl⟩

/-- Claim C2 counterexample: constructing a new `ShapeDiffFinder` over an
already-populated stats structure does not preserve the previously appended
entries — the constructor empties `compared` (and the other three logs). -/
theorem shape_diff_finder_init_discards_entries :
    (shape_diff_finder_init ⟨[⟨10, "b", "f0", []⟩], ["u"], [], []⟩).compared = [] ∧
    (⟨[⟨10, "b", "f0", []⟩], ["u"], [], []⟩ : Stats).compared ≠ [] := by
  decide

/-- Claim C2 amended: the constructor resets all four logs of the supplied
stats structure to empty lists, discarding earlier entries; accumulation
happens only across diff calls on one finder, whose methods append to the
existing logs (here shown for the reconciler). -/
theorem shape_diff_finder_init_resets_logs (st st2 : Stats) (oa ob : List String)
    (bp : String) :
    shape_diff_finder_init st = ⟨[], [], [], []⟩ ∧
    ∃ t, (build_names oa ob bp st2).1.unmatched = st2.unmatched ++ t := by
  refine ⟨rfl, ?_⟩
  unfold build_names
  dsimp only
  split
  · exact ⟨_, rfl⟩
  · exact ⟨[], by simp⟩

/-- Claim C3 counterexample: `_calc_ratio` can divide by zero.  With areas
(-1, 0) neither area is falsy, so the guard is passed, yet
`max(-1, 0) = 0` and the division raises `ZeroDivisionError`. -/
theorem calc_ratio_divides_by_zero :
    calc_ratio (-1, 0) = .error .zeroDivisionError := by
  rfl

/-- Claim C3 amended: restricted to nonnegative areas `_calc_ratio` never
divides by zero, returns 0 when both areas are zero, and otherwise returns
`1 - min/max`, which lies in [0, 1] (the value 1 is attained when exactly
one area is zero) and equals 0 exactly when the two areas are equal. -/
theorem calc_ratio_nonneg_spec (a b : ℚ) (ha : 0 ≤ a) (hb : 0 ≤ b) :
    ∃ r, calc_ratio (a, b) = .ok r ∧ 0 ≤ r ∧ r ≤ 1 ∧ (r = 0 ↔ a = b) := by
  unfold calc_ratio
  dsimp only
  by_cases h0 : a = 0 ∧ b = 0
  · exact ⟨0, by simp [h0], le_refl 0, by norm_num, by simp [h0.1, h0.2]⟩
  · have hmax : 0 < max a b := by
      rcases eq_or_lt_of_le (le_max_left a b) with h | h
      · rcases eq_or_lt_of_le ha with ha0 | ha0
        · rcases eq_or_lt_of_le hb with hb0 | hb0
          · exact absurd ⟨ha0.symm, hb0.symm⟩ h0
          · exact lt_of_lt_of_le hb0 (le_max_right a b)
        · exact lt_of_lt_of_le ha0 (le_max_left a b)
      · exact lt_of_le_of_lt ha h
    refine ⟨1 - min a b / max a b, ?_, ?_, ?_, ?_⟩
    · rw [if_neg h0, if_neg hmax.ne']
    · have : min a b / max a b ≤ 1 := (div_le_one hmax).mpr (min_le_max)
      linarith
    · have : 0 ≤ min a b / max a b := div_nonneg (le_min ha hb) hmax.le
      linarith
    · rw [sub_eq_zero, eq_comm, div_eq_one_iff_eq hmax.ne']
      constructor
      · intro h
        rcases le_total a b with hab | hab
        · rw [min_eq_left hab, max_eq_right hab] at h
          exact h
        · rw [min_eq_right hab, max_eq_left hab] at h
          exact h.symm
      · intro h
        simp [h]

/-- Witness for the amended C3 claim at the scenario areas (50, 60). -/
theorem calc_ratio_nonneg_spec_witness :
    (0 : ℚ) ≤ 50 ∧ (0 : ℚ) ≤ 60 ∧
    ∃ r, calc_ratio (50, 60) = .ok r ∧ 0 ≤ r ∧ r ≤ 1 ∧ (r = 0 ↔ (50 : ℚ) = 60) :=
  ⟨by norm_num, by norm_num, calc_ratio_nonneg_spec 50 60 (by norm_num) (by norm_num)⟩

/-- Claim C5: after the reconciler runs (on the freshly initialized stats of
a new finder), the shared set is the intersection of the two name sets, the
unmatched log is non-empty exactly when the two sets differ, and on a
mismatch exactly one entry `(sourceLabel, NamesA - NamesB, NamesB - NamesA)`
has been appended; no exception is involved (the function is total). -/
theorem build_names_intersection_spec (oa ob : List String) (bp : String) (st : Stats) :
    (build_names oa ob bp (shape_diff_finder_init st)).2 = oa.toFinset ∩ ob.toFinset ∧
    ((build_names oa ob bp (shape_diff_finder_init st)).1.unmatched ≠ [] ↔
      oa.toFinset ≠ ob.toFinset) ∧
    (oa.toFinset ≠ ob.toFinset →
      (build_names oa ob bp (shape_diff_finder_init st)).1.unmatched =
        [(bp, oa.toFinset \ ob.toFinset, ob.toFinset \ oa.toFinset)]) := by
  unfold build_names shape_diff_finder_init
  by_cases h : oa.toFinset = ob.toFinset
  · simp [h]
  · simp [h]

/-- Witness for C5 at the scenario fonts (A has extra glyph d). -/
theorem build_names_intersection_spec_witness :
    (["a", "b", "c", "d"].toFinset ≠ ["a", "b", "c"].toFinset) ∧
    (build_names ["a", "b", "c", "d"] ["a", "b", "c"] "f0"
        (shape_diff_finder_init ⟨[], [], [], []⟩)).1.unmatched =
      [("f0", {"d"}, ∅)] := by
  refine ⟨by decide, ?_⟩
  have h := (build_names_intersection_spec ["a", "b", "c", "d"] ["a", "b", "c"] "f0"
    ⟨[], [], [], []⟩).2.2 (by decide)
  rw [h]
  decide

/-- Looking a key up in an association list filtered by a key predicate. -/
lemma lookup_filter_key (l : List (String × ℕ)) (q : String → Bool) (n : String) :
    (l.filter (fun p => q p.1)).lookup n = if q n then l.lookup n else none := by
  induction l with
  | nil => simp [List.lookup]
  | cons p t ih =>
    obtain ⟨k, v⟩ := p
    by_cases hk : n = k
    · subst hk
      by_cases hq : q n
      · simp [List.filter_cons, hq, List.lookup]
      · simp [List.filter_cons, hq, List.lookup, ih]
    · by_cases hq : q k
      · have hbeq : (n == k) = false := by simp [hk]
        simp [List.filter_cons, hq, List.lookup, hbeq, ih]
      · have hbeq : (n == k) = false := by simp [hk]
        simp [List.filter_cons, hq, List.lookup, hbeq, ih]

/-- Claim C6 counterexample: glyph g is shared and the two fonts agree on
its mapped codepoint in the degenerate sense that neither maps it (both
lookups are `None`), yet the returned map does not contain g — the claimed
"contains exactly ... (including both mapping it to nothing)" fails.  The
name is also recorded nowhere (no `unicode_mismatch` entry). -/
theorem build_reverse_cmap_omits_agreeing_unmapped_name :
    ("g" ∈ ["g"]) ∧
    (([] : List (String × ℕ)).lookup "g" = ([] : List (String × ℕ)).lookup "g") ∧
    (build_reverse_cmap [] [] ["g"] "f0" ⟨[], [], [], []⟩).2.lookup "g" = none ∧
    (build_reverse_cmap [] [] ["g"] "f0" ⟨[], [], [], []⟩).1.unicode_mismatch = [] :=
  ⟨by decide, rfl, rfl, rfl⟩

/-- Claim C6 amended: the returned map contains exactly the names that are
shared, mapped by font A, and mapped identically by both fonts (a name both
fonts map to nothing is absent from the map); every shared name on which
the fonts disagree is absent from the map and counted once in the recorded
mismatch items; and the single `unicode_mismatch` entry is appended exactly
when some shared name disagrees. -/
theorem build_reverse_cmap_spec (cmapA cmapB : List (String × ℕ))
    (namesIter : List String) (bp : String) (st : Stats) (hnd : namesIter.Nodup) :
    (∀ n, (build_reverse_cmap cmapA cmapB namesIter bp st).2.lookup n =
      if n ∈ namesIter ∧ cmapA.lookup n = cmapB.lookup n then cmapA.lookup n
      else none) ∧
    (∀ n ∈ namesIter, cmapA.lookup n ≠ cmapB.lookup n →
      ∃ items, (build_reverse_cmap cmapA cmapB namesIter bp st).1.unicode_mismatch =
          st.unicode_mismatch ++ [(bp, items)] ∧ (items.map Prod.fst).count n = 1) ∧
    ((build_reverse_cmap cmapA cmapB namesIter bp st).1.unicode_mismatch ≠
        st.unicode_mismatch ↔
      ∃ n ∈ namesIter, cmapA.lookup n ≠ cmapB.lookup n) := by
  unfold build_reverse_cmap
  dsimp only
  set mm := namesIter.filter (fun n => decide (cmapA.lookup n ≠ cmapB.lookup n)) with hmm
  have hmem : ∀ n, n ∈ mm ↔ n ∈ namesIter ∧ cmapA.lookup n ≠ cmapB.lookup n := by
    intro n
    simp [hmm, List.mem_filter]
  refine ⟨?_, ?_, ?_⟩
  · intro n
    rw [lookup_filter_key cmapA (fun x => namesIter.contains x && !(mm.contains x)) n]
    by_cases h1 : n ∈ namesIter
    · by_cases h2 : cmapA.lookup n = cmapB.lookup n
      · have : ¬ n ∈ mm := fun h => ((hmem n).mp h).2 h2
        simp [h1, h2, this]
      · have : n ∈ mm := (hmem n).mpr ⟨h1, h2⟩
        simp [h1, h2, this]
    · have : ¬ n ∈ mm := fun h => h1 ((hmem n).mp h).1
      simp [h1, this]
  · intro n hn hne
    have hmmn : n ∈ mm := (hmem n).mpr ⟨hn, hne⟩
    have hne2 : (mm.map (fun n => (n, (cmapA.lookup n, cmapB.lookup n)))).isEmpty = false := by
      rcases mm with _ | ⟨a, t⟩
      · exact absurd hmmn (by simp)
      · simp
    refine ⟨mm.map (fun n => (n, (cmapA.lookup n, cmapB.lookup n))), by simp [hne2], ?_⟩
    have : (mm.map (fun n => (n, (cmapA.lookup n, cmapB.lookup n)))).map Prod.fst = mm := by
      simp [List.map_map, Function.comp_def]
    rw [this]
    exact List.count_eq_one_of_mem (hnd.filter _) hmmn
  · by_cases hempty : mm = []
    · have : (mm.map (fun n => (n, (cmapA.lookup n, cmapB.lookup n)))).isEmpty = true := by
        simp [hempty]
      simp only [this]
      constructor
      · intro h
        exact absurd rfl h
      · rintro ⟨n, hn, hne⟩
        exact absurd ((hmem n).mpr ⟨hn, hne⟩) (by simp [hempty])
    · have : (mm.map (fun n => (n, (cmapA.lookup n, cmapB.lookup n)))).isEmpty = false := by
        rcases mm with _ | ⟨a, t⟩
        · exact absurd rfl hempty
        · simp
      simp only [this]
      constructor
      · intro _
        rcases List.exists_mem_of_ne_nil mm hempty with ⟨n, hn⟩
        exact ⟨n, ((hmem n).mp hn).1, ((hmem n).mp hn).2⟩
      · intro _
        intro h
        have := congrArg List.length h
        simp at this

/-- Witness for the amended C6 claim: fonts agreeing on g (U+0041) but
disagreeing on h get one recorded mismatch entry in which h occurs once. -/
theorem build_reverse_cmap_spec_witness :
    (["g", "h"] : List String).Nodup ∧
    ("h" ∈ ["g", "h"]) ∧
    ([("g", 65), ("h", 1)] : List (String × ℕ)).lookup "h" ≠
      ([("g", 65), ("h", 2)] : List (String × ℕ)).lookup "h" ∧
    ∃ items, (build_reverse_cmap [("g", 65), ("h", 1)] [("g", 65), ("h", 2)]
        ["g", "h"] "f0" ⟨[], [], [], []⟩).1.unicode_mismatch =
        (⟨[], [], [], []⟩ : Stats).unicode_mismatch ++ [("f0", items)] ∧
      (items.map Prod.fst).count "h" = 1 := by
  refine ⟨by decide, by decide, by decide, ?_⟩
  exact (build_reverse_cmap_spec [("g", 65), ("h", 1)] [("g", 65), ("h", 2)]
    ["g", "h"] "f0" ⟨[], [], [], []⟩ (by decide)).2.1 "h" (by decide) (by decide)

/-- Claim C4 counterexample: whitelisting glyph x does not keep it out of
the report body — the untested section of `dump` is not filtered, so the
whitelisted name still appears in the rendered text. -/
theorem dump_prints_whitelisted_untested :
    ("x" ∈ ({"x"} : Finset String)) ∧
    dumpLines ⟨[], ["x"], [], []⟩ {"x"} 10 false false =
      some ["0 differences in glyph shape", "",
            "not tested (unreachable?): x", "", "", ""] ∧
    strOccurs "x" "not tested (unreachable?): x" :=
  ⟨by decide, by rfl, ⟨"not tested (unreachable?): ", "", by rfl⟩⟩

/-- Claim C4 amended: whitelisted glyph names never appear as the glyph
name of a printed diff row (every record surviving to the printed rows has
a non-whitelisted name); the untested, unmatched and unicode_mismatch
sections are not filtered by the whitelist. -/
theorem dump_rows_exclude_whitelisted (stats : Stats) (wl : Finset String)
    (n : ℕ) (r : DiffRecord) (hr : r ∈ (sortedCompared stats wl).take n) :
    r.name ∉ wl := by
  have h1 : r ∈ sortedCompared stats wl := List.mem_of_mem_take hr
  unfold sortedCompared at h1
  rw [List.mem_reverse, List.mem_insertionSort, List.mem_filter] at h1
  simpa using h1.2

/-- Witness for the amended C4 claim. -/
theorem dump_rows_exclude_whitelisted_witness :
    ((⟨10, "b", "f0", []⟩ : DiffRecord) ∈
      (sortedCompared ⟨[⟨10, "b", "f0", []⟩], [], [], []⟩ {"x"}).take 5) ∧
    "b" ∉ ({"x"} : Finset String) :=
  ⟨by decide,
   dump_rows_exclude_whitelisted ⟨[⟨10, "b", "f0", []⟩], [], [], []⟩ {"x"} 5
     ⟨10, "b", "f0", []⟩ (by decide)⟩

/-- An area record with raw values, as the scenario produces for glyph b. -/
def rowRec : DiffRecord := ⟨10, "b", "f0", [50, 60]⟩

/-- Claim C8 counterexample: in a multi-font diff row the font-source label
precedes the glyph name ("f0 b 10 ..."), not the other way round: the row
tuple is the reversal of the stored (metric, name, font) prefix. -/
theorem dump_row_puts_font_label_first :
    dumpLines ⟨[rowRec], [], [], []⟩ ∅ 10 true true =
      some ["1 differences in glyph shape", "f0 b 10 (50 vs 60)", "", "", "", ""] ∧
    dumpRowFields rowRec true =
      [.str "f0", .str "b", .num 10, .num 50, .num 60] ∧
    ¬ ((dumpRowFields rowRec true).indexOf (.str "b") <
        (dumpRowFields rowRec true).indexOf (.str "f0")) :=
  ⟨by rfl, by rfl, by decide⟩

/-- Claim C8 amended: in every diff row the font-source label (present only
when `multiple_fonts`) comes first, followed by the glyph name, the metric,
and the raw compared values; with `multiple_fonts` false the label is
omitted, and with `include_vals` true the two raw values are rendered after
the metric. -/
theorem dump_row_field_order (r : DiffRecord) :
    dumpRowFields r true =
      .str r.source :: .str r.name :: .num r.metric :: r.vals.map .num ∧
    dumpRowFields r false = .str r.name :: .num r.metric :: r.vals.map .num ∧
    (∀ a b : ℚ, r.vals = [a, b] →
      rowString r true false =
        some (r.name ++ " " ++ pyRepr r.metric ++ " (" ++ pyRepr a ++ " vs "
          ++ pyRepr b ++ ")")) := by
  refine ⟨?_, ?_, ?_⟩
  · simp [dumpRowFields, recordTuple]
  · simp [dumpRowFields, recordTuple]
  · intro a b hv
    simp [rowString, dumpRowFields, recordTuple, hv, formatRow, pyValFmt]

/-- Witness for the amended C8 claim. -/
theorem dump_row_field_order_witness :
    rowRec.vals = [50, 60] ∧
    rowString rowRec true false =
      some (rowRec.name ++ " " ++ pyRepr rowRec.metric ++ " (" ++ pyRepr 50
        ++ " vs " ++ pyRepr 60 ++ ")") :=
  ⟨rfl, (dump_row_field_order rowRec).2.2 50 60 rfl⟩

/-- Claim C10: the count in the header line of `dump` is the number of
compared records surviving the whitelist filter, whatever `out_lines`
truncation is applied to the printed rows. -/
theorem dump_header_counts_all_filtered (stats : Stats) (wl : Finset String)
    (out_lines : ℕ) (iv mf : Bool) (ls : List String)
    (h : dumpLines stats wl out_lines iv mf = some ls) :
    ls.head? = some (Nat.repr (stats.compared.filter
      (fun s => decide (s.name ∉ wl))).length ++ " differences in glyph shape") := by
  have hlen : (sortedCompared stats wl).length =
      (stats.compared.filter (fun s => decide (s.name ∉ wl))).length := by
    unfold sortedCompared
    rw [List.length_reverse, List.length_insertionSort]
  simp only [dumpLines] at h
  cases hX : ((sortedCompared stats wl).take out_lines).mapM
      (fun r => rowString r iv mf) with
  | none =>
    rw [hX] at h
    exact Option.noConfusion h
  | some rows =>
    rw [hX] at h
    simp only [Option.map_some', Option.some_inj] at h
    rw [← h, ← hlen]
    rfl

/-- Witness for C10: with one surviving record and `out_lines = 0` (no row
printed) the header still counts it. -/
theorem dump_header_counts_all_filtered_witness :
    dumpLines ⟨[⟨10, "b", "f0", []⟩], [], [], []⟩ ∅ 0 false false =
      some ["1 differences in glyph shape", "", "", "", ""] ∧
    (["1 differences in glyph shape", "", "", "", ""] : List String).head? =
      some (Nat.repr ((⟨[⟨10, "b", "f0", []⟩], [], [], []⟩ : Stats).compared.filter
        (fun s => decide (s.name ∉ (∅ : Finset String)))).length
        ++ " differences in glyph shape") :=
  ⟨by rfl,
   dump_header_counts_all_filtered ⟨[⟨10, "b", "f0", []⟩], [], [], []⟩ ∅ 0 false false
     ["1 differences in glyph shape", "", "", "", ""] (by rfl)⟩

/-- The reconciler writes only to the unmatched log. -/
lemma build_names_preserves (oa ob : List String) (bp : String) (st : Stats) :
    (build_names oa ob bp st).1.compared = st.compared ∧
    (build_names oa ob bp st).1.untested = st.untested := by
  unfold build_names
  dsimp only
  split <;> simp

/-- The codepoint reconciler writes only to the unicode_mismatch log. -/
lemma build_reverse_cmap_preserves (cA cB : List (String × ℕ))
    (iter : List String) (bp : String) (st : Stats) :
    (build_reverse_cmap cA cB iter bp st).1.compared = st.compared ∧
    (build_reverse_cmap cA cB iter bp st).1.untested = st.untested := by
  unfold build_reverse_cmap
  dsimp only
  split <;> simp

/-- The enumeration of a shared-name set is duplicate-free. -/
lemma orderedNames_nodup (oa : List String) (s : Finset String) :
    (orderedNames oa s).Nodup :=
  (List.nodup_dedup oa).filter _

/-- Membership in the enumeration of the shared-name set. -/
lemma mem_orderedNames_inter (oa ob : List String) (g : String) :
    g ∈ orderedNames oa (oa.toFinset ∩ ob.toFinset) ↔
      g ∈ oa.toFinset ∩ ob.toFinset := by
  unfold orderedNames
  rw [List.mem_filter]
  constructor
  · rintro ⟨-, h⟩
    exact of_decide_eq_true h
  · intro h
    refine ⟨?_, decide_eq_true h⟩
    rw [List.mem_dedup]
    have := (Finset.mem_inter.mp h).1
    simpa [List.mem_toFinset] using this

/-- A completed (exception-free) per-glyph loop: the shaping inputs agreed
on every name, `untested` gained exactly the unreachable names, the diff
log gained one name line and one metric line per reachable name, and the
other stats logs are untouched. -/
lemma runGlyphs_ok (genA genB : String → Option (List String × String))
    (aeLine : String → String) (l : List String) (s s2 : RenderState)
    (h : runGlyphs genA genB aeLine l s = (s2, none)) :
    s2.st.compared = s.st.compared ∧
    s2.st.untested = s.st.untested ++ l.filter (fun g => (genA g).isNone) ∧
    s2.diffLog = s.diffLog ++ (l.filter (reachableGlyph genA)).flatMap
      (fun g => [g, aeLine g]) := by
  induction l generalizing s with
  | nil =>
    simp only [runGlyphs, Prod.mk.injEq] at h
    rw [← h.1]
    simp
  | cons n rest ih =>
    by_cases hEq : genA n = genB n
    · cases hg : genA n with
      | none =>
        have hgB : genB n = none := hEq.symm.trans hg
        have hr : renderGlyph genA genB aeLine s n =
            .ok { s with st := { s.st with untested := s.st.untested ++ [n] } } := by
          simp [renderGlyph, hg, hgB]
        simp only [runGlyphs, hr] at h
        obtain ⟨h1, h2, h3⟩ := ih _ h
        refine ⟨h1, ?_, ?_⟩
        · rw [h2]
          simp [List.filter_cons, hg]
        · rw [h3]
          simp [List.filter_cons, reachableGlyph, hg]
      | some ft =>
        obtain ⟨features, text⟩ := ft
        by_cases ht : text = "\x00"
        · have hgB : genB n = some (features, text) := hEq.symm.trans hg
          have hr : renderGlyph genA genB aeLine s n = .ok s := by
            simp [renderGlyph, hg, hgB, ht]
          simp only [runGlyphs, hr] at h
          obtain ⟨h1, h2, h3⟩ := ih _ h
          refine ⟨h1, ?_, ?_⟩
          · rw [h2]
            simp [List.filter_cons, hg]
          · rw [h3]
            simp [List.filter_cons, reachableGlyph, hg, ht]
        · have hgB : genB n = some (features, text) := hEq.symm.trans hg
          have hr : renderGlyph genA genB aeLine s n =
              .ok { s with diffLog := s.diffLog ++ [n, aeLine n] } := by
            simp [renderGlyph, hg, hgB, ht]
          simp only [runGlyphs, hr] at h
          obtain ⟨h1, h2, h3⟩ := ih _ h
          refine ⟨h1, ?_, ?_⟩
          · rw [h2]
            simp [List.filter_cons, hg]
          · rw [h3]
            simp [List.filter_cons, reachableGlyph, hg, ht]
    · have hr : renderGlyph genA genB aeLine s n = .error .assertionError := by
        simp [renderGlyph, hEq]
      simp only [runGlyphs, hr] at h
      exact absurd (congrArg Prod.snd h) (by simp)

/-- Parsing a log made of name/metric line chunks recovers the stripped
pairs. -/
lemma parsePairs_flatMap (aeLine : String → String) (l : List String) :
    parsePairs (l.flatMap (fun g => [g, aeLine g])) =
      .ok (l.map (fun g => (pyStrip g, pyStrip (aeLine g)))) := by
  induction l with
  | nil => rfl
  | cons n rest ih =>
    have : (n :: rest).flatMap (fun g => [g, aeLine g]) =
        n :: aeLine n :: rest.flatMap (fun g => [g, aeLine g]) := by
      simp
    rw [this]
    simp [parsePairs, ih]

/-- A successful `int` filter keeps exactly the nonzero-parsing pairs. -/
lemma intFilterPairs_ok (ps : List (String × String)) (res : List (String × ℤ))
    (h : intFilterPairs ps = .ok res) :
    res = ps.filterMap (fun p =>
      match pyIntOfString p.2 with
      | none => none
      | some v => if v ≠ 0 then some (p.1, v) else none) := by
  induction ps generalizing res with
  | nil =>
    simp only [intFilterPairs, Except.ok.injEq] at h
    simp [← h]
  | cons p t ih =>
    obtain ⟨n, d⟩ := p
    simp only [intFilterPairs] at h
    cases hv : pyIntOfString d with
    | none =>
      rw [hv] at h
      exact Except.noConfusion h
    | some v =>
      rw [hv] at h
      cases hrest : intFilterPairs t with
      | error e =>
        rw [hrest] at h
        exact Except.noConfusion h
      | ok tail =>
        rw [hrest] at h
        simp only [Except.ok.injEq] at h
        rw [← h, List.filterMap_cons, hv, ih tail hrest]
        by_cases hz : v = 0
        · simp [hz]
        · simp [hz]

/-- `parsePairs` can only raise `IndexError`. -/
lemma parsePairs_error_eq : ∀ (l : List String) (e : PyErr),
    parsePairs l = .error e → e = .indexError
  | [], _, h => by simp [parsePairs] at h
  | [_], e, h => by
    simp only [parsePairs, Except.error.injEq] at h
    exact h.symm
  | _ :: _ :: rest, e, h => by
    simp only [parsePairs] at h
    cases hp : parsePairs rest with
    | error e2 =>
      rw [hp] at h
      simp only [Except.error.injEq] at h
      rw [← h]
      exact parsePairs_error_eq rest e2 hp
    | ok t =>
      rw [hp] at h
      exact Except.noConfusion h

/-- `intFilterPairs` can only raise `ValueError`. -/
lemma intFilterPairs_error_eq (ps : List (String × String)) (e : PyErr)
    (h : intFilterPairs ps = .error e) : e = .valueError := by
  induction ps generalizing e with
  | nil => simp [intFilterPairs] at h
  | cons p t ih =>
    obtain ⟨n, d⟩ := p
    simp only [intFilterPairs] at h
    cases hv : pyIntOfString d with
    | none =>
      rw [hv] at h
      simp only [Except.error.injEq] at h
      exact h.symm
    | some v =>
      rw [hv] at h
      cases hrest : intFilterPairs t with
      | error e2 =>
        rw [hrest] at h
        simp only [Except.error.injEq] at h
        rw [← h]
        exact ih e2 hrest
      | ok tail =>
        rw [hrest] at h
        exact Except.noConfusion h

/-- Stripping, parsing, filtering and re-tupling the log pairs is the same
as `renderedRecords`. -/
lemma mapped_mismatch_eq_renderedRecords
    (genA : String → Option (List String × String)) (aeLine : String → String)
    (bp : String) (l : List String) :
    (((l.filter (reachableGlyph genA)).map
        (fun g => (pyStrip g, pyStrip (aeLine g)))).filterMap (fun p =>
      match pyIntOfString p.2 with
      | none => none
      | some v => if v ≠ 0 then some (p.1, v) else none)).map
        (fun p => (⟨(p.2 : ℚ), p.1, bp, []⟩ : DiffRecord)) =
      renderedRecords genA aeLine bp l := by
  unfold renderedRecords
  rw [List.filterMap_map, List.map_filterMap]
  congr 1
  funext g
  cases hv : pyIntOfString (pyStrip (aeLine g)) with
  | none => simp [Function.comp, hv]
  | some v =>
    by_cases hz : v = 0
    · simp [Function.comp, hv, hz]
    · simp [Function.comp, hv, hz]

/-- An exception-free tail of the rendered run: the log parsed, the filter
succeeded, and the outcome appends the kept records and removes the files. -/
lemma finishRenderedRun_ok (bp : String) (s1 : RenderState)
    (hok : (finishRenderedRun bp (s1, none)).error = none) :
    ∃ diffs mism, parsePairs s1.diffLog = .ok diffs ∧
      intFilterPairs diffs = .ok mism ∧
      finishRenderedRun bp (s1, none) =
        ⟨none,
         { s1.st with compared := s1.st.compared
             ++ mism.map (fun p => ⟨(p.2 : ℚ), p.1, bp, []⟩) },
         tmpPaths, tmpPaths⟩ := by
  cases hp : parsePairs s1.diffLog with
  | error e =>
    exfalso
    have h2 : finishRenderedRun bp (s1, none) = ⟨some e, s1.st, tmpPaths, []⟩ := by
      simp [finishRenderedRun, hp]
    rw [h2] at hok
    exact Option.noConfusion hok
  | ok diffs =>
    cases hi : intFilterPairs diffs with
    | error e =>
      exfalso
      have h2 : finishRenderedRun bp (s1, none) = ⟨some e, s1.st, tmpPaths, tmpPaths⟩ := by
        simp [finishRenderedRun, hp, hi]
      rw [h2] at hok
      exact Option.noConfusion hok
    | ok mism =>
      refine ⟨diffs, mism, rfl, hi, ?_⟩
      simp [finishRenderedRun, hp, hi]

/-- An exception-free `find_rendered_diffs` run: `untested` gained exactly
the unreachable shared names, `compared` gained exactly the nonzero-metric
records of the reachable shared names, and all four temporary files were
created and removed. -/
lemma find_rendered_diffs_ok_eq (cA cB : List (String × ℕ))
    (genA genB : String → Option (List String × String)) (aeLine : String → String)
    (oa ob : List String) (bp : String) (st : Stats)
    (hok : (find_rendered_diffs cA cB genA genB aeLine oa ob bp st).error = none) :
    (find_rendered_diffs cA cB genA genB aeLine oa ob bp st).st.untested =
      st.untested ++ (orderedNames oa (oa.toFinset ∩ ob.toFinset)).filter
        (fun g => (genA g).isNone) ∧
    (find_rendered_diffs cA cB genA genB aeLine oa ob bp st).st.compared =
      st.compared ++ renderedRecords genA aeLine bp
        (orderedNames oa (oa.toFinset ∩ ob.toFinset)) ∧
    (find_rendered_diffs cA cB genA genB aeLine oa ob bp st).removed = tmpPaths ∧
    (find_rendered_diffs cA cB genA genB aeLine oa ob bp st).created = tmpPaths := by
  have hu2 : (build_reverse_cmap cA cB (orderedNames oa (oa.toFinset ∩ ob.toFinset)) bp
      (build_names oa ob bp st).1).1.untested = st.untested :=
    ((build_reverse_cmap_preserves cA cB _ bp _).2).trans
      (build_names_preserves oa ob bp st).2
  have hc2 : (build_reverse_cmap cA cB (orderedNames oa (oa.toFinset ∩ ob.toFinset)) bp
      (build_names oa ob bp st).1).1.compared = st.compared :=
    ((build_reverse_cmap_preserves cA cB _ bp _).1).trans
      (build_names_preserves oa ob bp st).1
  have key : find_rendered_diffs cA cB genA genB aeLine oa ob bp st =
      finishRenderedRun bp (runGlyphs genA genB aeLine
        (orderedNames oa (oa.toFinset ∩ ob.toFinset))
        ⟨(build_reverse_cmap cA cB (orderedNames oa (oa.toFinset ∩ ob.toFinset)) bp
            (build_names oa ob bp st).1).1, []⟩) := rfl
  rw [key] at hok ⊢
  rcases hrun : runGlyphs genA genB aeLine (orderedNames oa (oa.toFinset ∩ ob.toFinset))
      ⟨(build_reverse_cmap cA cB (orderedNames oa (oa.toFinset ∩ ob.toFinset)) bp
          (build_names oa ob bp st).1).1, []⟩ with ⟨s1, e1⟩
  rw [hrun] at hok
  cases e1 with
  | some e => exact absurd hok (by simp [finishRenderedRun])
  | none =>
    obtain ⟨diffs, mism, hp, hi, heq⟩ := finishRenderedRun_ok bp s1 hok
    rw [heq]
    obtain ⟨hc, hu, hlog⟩ := runGlyphs_ok genA genB aeLine _ _ s1 hrun
    dsimp only at hc hu hlog
    refine ⟨?_, ?_, rfl, rfl⟩
    · show s1.st.untested = _
      rw [hu, hu2]
    · show s1.st.compared ++ _ = _
      rw [hc, hc2]
      congr 1
      have hdiffs : diffs =
          ((orderedNames oa (oa.toFinset ∩ ob.toFinset)).filter
            (reachableGlyph genA)).map (fun g => (pyStrip g, pyStrip (aeLine g))) := by
        have := parsePairs_flatMap aeLine
          ((orderedNames oa (oa.toFinset ∩ ob.toFinset)).filter (reachableGlyph genA))
        rw [hlog] at hp
        simp only [List.nil_append] at hp
        rw [this] at hp
        exact (Except.ok.inj hp).symm
      have hmism := intFilterPairs_ok diffs mism hi
      rw [hmism, hdiffs]
      exact mapped_mismatch_eq_renderedRecords genA aeLine bp _

/-- Claim C7: in an exception-free rendered-diff run over glyph names free
of surrounding whitespace, every shared glyph with no derivable shaping
input is counted exactly once more in `untested`; `compared` gains exactly
the parsed log pairs with nonzero metric, as `(metric, name, sourceLabel)`
records; no record of an unreachable glyph is appended; and every appended
record has a nonzero metric (zero pixel differences are discarded). -/
theorem find_rendered_diffs_untested_and_zero_discard (cA cB : List (String × ℕ))
    (genA genB : String → Option (List String × String)) (aeLine : String → String)
    (oa ob : List String) (bp : String) (st : Stats)
    (hok : (find_rendered_diffs cA cB genA genB aeLine oa ob bp st).error = none)
    (hclean : ∀ g ∈ orderedNames oa (oa.toFinset ∩ ob.toFinset), pyStrip g = g) :
    (∀ g ∈ oa.toFinset ∩ ob.toFinset, genA g = none ∧ genB g = none →
      (find_rendered_diffs cA cB genA genB aeLine oa ob bp st).st.untested.count g =
        st.untested.count g + 1) ∧
    (find_rendered_diffs cA cB genA genB aeLine oa ob bp st).st.compared =
      st.compared ++ renderedRecords genA aeLine bp
        (orderedNames oa (oa.toFinset ∩ ob.toFinset)) ∧
    (∀ g ∈ oa.toFinset ∩ ob.toFinset, genA g = none ∧ genB g = none →
      ∀ r ∈ (find_rendered_diffs cA cB genA genB aeLine oa ob bp st).st.compared,
        r ∈ st.compared ∨ r.name ≠ g) ∧
    (∀ r ∈ (find_rendered_diffs cA cB genA genB aeLine oa ob bp st).st.compared,
      r ∉ st.compared → r.metric ≠ 0 ∧ r.source = bp ∧ r.vals = []) := by
  obtain ⟨hu, hc, -, -⟩ := find_rendered_diffs_ok_eq cA cB genA genB aeLine oa ob bp st hok
  refine ⟨?_, hc, ?_, ?_⟩
  · intro g hg hnone
    rw [hu, List.count_append]
    have h1 : g ∈ (orderedNames oa (oa.toFinset ∩ ob.toFinset)).filter
        (fun x => (genA x).isNone) := by
      rw [List.mem_filter]
      exact ⟨(mem_orderedNames_inter oa ob g).mpr hg, by simp [hnone.1]⟩
    have h2 : ((orderedNames oa (oa.toFinset ∩ ob.toFinset)).filter
        (fun x => (genA x).isNone)).Nodup := (orderedNames_nodup oa _).filter _
    rw [List.count_eq_one_of_mem h2 h1]
  · intro g hg hnone r hr
    rw [hc] at hr
    rcases List.mem_append.mp hr with h | h
    · exact Or.inl h
    · right
      unfold renderedRecords at h
      obtain ⟨g2, hg2, hfg2⟩ := List.mem_filterMap.mp h
      have hg2iter : g2 ∈ orderedNames oa (oa.toFinset ∩ ob.toFinset) :=
        List.mem_of_mem_filter hg2
      have hreach : reachableGlyph genA g2 = true := List.of_mem_filter hg2
      have hname : r.name = g2 := by
        cases hv : pyIntOfString (pyStrip (aeLine g2)) with
        | none =>
          rw [hv] at hfg2
          exact Option.noConfusion hfg2
        | some v =>
          rw [hv] at hfg2
          dsimp only at hfg2
          by_cases hz : v = 0
          · simp [hz] at hfg2
          · rw [if_pos hz] at hfg2
            have h3 := Option.some.inj hfg2
            rw [← h3]
            exact hclean g2 hg2iter
      rw [hname]
      intro h4
      rw [h4] at hreach
      rw [reachableGlyph, hnone.1] at hreach
      exact Bool.noConfusion hreach
  · intro r hr hnotin
    rw [hc] at hr
    rcases List.mem_append.mp hr with h | h
    · exact absurd h hnotin
    · unfold renderedRecords at h
      obtain ⟨g2, hg2, hfg2⟩ := List.mem_filterMap.mp h
      cases hv : pyIntOfString (pyStrip (aeLine g2)) with
      | none =>
        rw [hv] at hfg2
        exact Option.noConfusion hfg2
      | some v =>
        rw [hv] at hfg2
        dsimp only at hfg2
        by_cases hz : v = 0
        · simp [hz] at hfg2
        · rw [if_pos hz] at hfg2
          have h3 := Option.some.inj hfg2
          rw [← h3]
          refine ⟨?_, rfl, rfl⟩
          show ((v : ℚ)) ≠ 0
          exact_mod_cast hz

/-- Witness for C7: one shared glyph g, unreachable in both fonts, ends up
counted once in `untested` and the run succeeds. -/
theorem find_rendered_diffs_untested_and_zero_discard_witness :
    ((find_rendered_diffs [] [] (fun _ => none) (fun _ => none) (fun _ => "0")
        ["g"] ["g"] "f0" ⟨[], [], [], []⟩).error = none) ∧
    ("g" ∈ (["g"] : List String).toFinset ∩ (["g"] : List String).toFinset) ∧
    (find_rendered_diffs [] [] (fun _ => none) (fun _ => none) (fun _ => "0")
        ["g"] ["g"] "f0" ⟨[], [], [], []⟩).st.untested.count "g" =
      (⟨[], [], [], []⟩ : Stats).untested.count "g" + 1 :=
  ⟨rfl, by decide,
   (find_rendered_diffs_untested_and_zero_discard [] [] (fun _ => none) (fun _ => none)
      (fun _ => "0") ["g"] ["g"] "f0" ⟨[], [], [], []⟩ rfl (by decide)).1 "g"
      (by decide) ⟨rfl, rfl⟩⟩

/-- Claim C9 counterexample: a shaping-input consistency fault (the two
generators disagree on glyph g) aborts the run after the four temporary
files are created and before any `os.remove` runs — they all leak. -/
theorem find_rendered_diffs_leaks_tmp_on_abort :
    (find_rendered_diffs [] [] (fun _ => some ([], "x")) (fun _ => none)
        (fun _ => "0") ["g"] ["g"] "f0" ⟨[], [], [], []⟩).error =
      some .assertionError ∧
    (find_rendered_diffs [] [] (fun _ => some ([], "x")) (fun _ => none)
        (fun _ => "0") ["g"] ["g"] "f0" ⟨[], [], [], []⟩).created = tmpPaths ∧
    tmpPaths ≠ [] ∧
    (find_rendered_diffs [] [] (fun _ => some ([], "x")) (fun _ => none)
        (fun _ => "0") ["g"] ["g"] "f0" ⟨[], [], [], []⟩).removed = [] :=
  ⟨rfl, rfl, by decide, rfl⟩

/-- Claim C9 amended: the four temporary files are all removed at the end of
an exception-free run, but a run aborted by the shaping-input consistency
assert removes none of them. -/
theorem find_rendered_diffs_cleanup_spec (cA cB : List (String × ℕ))
    (genA genB : String → Option (List String × String)) (aeLine : String → String)
    (oa ob : List String) (bp : String) (st : Stats) :
    ((find_rendered_diffs cA cB genA genB aeLine oa ob bp st).error = none →
      (find_rendered_diffs cA cB genA genB aeLine oa ob bp st).removed =
        (find_rendered_diffs cA cB genA genB aeLine oa ob bp st).created) ∧
    ((find_rendered_diffs cA cB genA genB aeLine oa ob bp st).error =
        some .assertionError →
      (find_rendered_diffs cA cB genA genB aeLine oa ob bp st).removed = []) := by
  have key : find_rendered_diffs cA cB genA genB aeLine oa ob bp st =
      finishRenderedRun bp (runGlyphs genA genB aeLine
        (orderedNames oa (oa.toFinset ∩ ob.toFinset))
        ⟨(build_reverse_cmap cA cB (orderedNames oa (oa.toFinset ∩ ob.toFinset)) bp
            (build_names oa ob bp st).1).1, []⟩) := rfl
  rw [key]
  rcases hrun : runGlyphs genA genB aeLine (orderedNames oa (oa.toFinset ∩ ob.toFinset))
      ⟨(build_reverse_cmap cA cB (orderedNames oa (oa.toFinset ∩ ob.toFinset)) bp
          (build_names oa ob bp st).1).1, []⟩ with ⟨s1, e1⟩
  cases e1 with
  | some e =>
    constructor
    · intro h
      exact absurd h (by simp [finishRenderedRun])
    · intro _
      rfl
  | none =>
    cases hp : parsePairs s1.diffLog with
    | error e =>
      constructor
      · intro h
        have h2 : (finishRenderedRun bp (s1, none)).error = some e := by
          simp [finishRenderedRun, hp]
        rw [h2] at h
        exact Option.noConfusion h
      · intro _
        simp [finishRenderedRun, hp]
    | ok diffs =>
      cases hi : intFilterPairs diffs with
      | error e =>
        constructor
        · intro h
          have h2 : (finishRenderedRun bp (s1, none)).error = some e := by
            simp [finishRenderedRun, hp, hi]
          rw [h2] at h
          exact Option.noConfusion h
        · intro h
          exfalso
          have h2 : (finishRenderedRun bp (s1, none)).error = some e := by
            simp [finishRenderedRun, hp, hi]
          rw [h2] at h
          have h3 := Option.some.inj h
          have h4 := intFilterPairs_error_eq diffs e hi
          rw [h4] at h3
          exact PyErr.noConfusion h3
      | ok mism =>
        constructor
        · intro _
          simp [finishRenderedRun, hp, hi]
        · intro h
          exfalso
          have h2 : (finishRenderedRun bp (s1, none)).error = none := by
            simp [finishRenderedRun, hp, hi]
          rw [h2] at h
          exact Option.noConfusion h

/-- Witness for the amended C9 claim: on an exception-free run the removed
temporary files are exactly the created ones. -/
theorem find_rendered_diffs_cleanup_spec_witness :
    ((find_rendered_diffs [] [] (fun _ => none) (fun _ => none) (fun _ => "7")
        ["g"] ["g"] "f0" ⟨[], [], [], []⟩).error = none) ∧
    (find_rendered_diffs [] [] (fun _ => none) (fun _ => none) (fun _ => "7")
        ["g"] ["g"] "f0" ⟨[], [], [], []⟩).removed =
      (find_rendered_diffs [] [] (fun _ => none) (fun _ => none) (fun _ => "7")
        ["g"] ["g"] "f0" ⟨[], [], [], []⟩).created :=
  ⟨rfl,
   (find_rendered_diffs_cleanup_spec [] [] (fun _ => none) (fun _ => none)
      (fun _ => "7") ["g"] ["g"] "f0" ⟨[], [], [], []⟩).1 rfl⟩
